import Mathlib

/-!
Verification of the balloon-descent trajectory scripts
(from_env_sounding.py, from_rap.py, from_flight_tracker.py).

The simulation engine is embedded shallowly: atmospheric levels, the
k-nearest level sampler, the ascent loop (while counter <= time_to_cutdown),
the descent loop (while not landed), and the terrain landed test are
translated from the Python source, with real numbers represented by
rationals.  The coordinateSystems module (GeographicSystem and
TangentPlaneCartesianSystem) is an external collaborator that is not part
of the sources; it is modelled from the spec, see the comment on toECEF.
-/

set_option maxRecDepth 8000

namespace BalloonDescent

/-- One atmospheric level of the sounding table.  In from_env_sounding.py
the columns are alt, u, v (derived from wind direction and speed),
fall_rate (derived from pressure via fall_function), and lat, lon, Time
(present for tracked soundings, used by the gap-bridging branch). -/
structure Level where
  alt : ℚ
  u : ℚ
  v : ℚ
  fall_rate : ℚ
  lat : ℚ
  lon : ℚ
  time : ℚ
  deriving DecidableEq

/-- The balloon simulation cursor: balloon_lon, balloon_lat, balloon_alt. -/
structure SimState where
  lon : ℚ
  lat : ℚ
  alt : ℚ
  deriving DecidableEq

/-- One recorded track entry: track_lon, track_lat, track_alt, track_t. -/
structure TrackPt where
  lon : ℚ
  lat : ℚ
  alt : ℚ
  t : ℚ
  deriving DecidableEq

/-- One row of terrain.txt: lon, lat, ground elevation. -/
structure GroundPt where
  lon : ℚ
  lat : ℚ
  alt : ℚ
  deriving DecidableEq

abbrev Profile := List Level

abbrev Terrain := List GroundPt

/-- rise_rate = 6.09 in all three scripts. -/
def rise_rate : ℚ := 609 / 100

/-- fall_function(pressure) = -917.02/(pressure+11)-5.167. -/
def fall_function (pressure : ℚ) : ℚ := -(91702 / 100) / (pressure + 11) - 5167 / 1000

/-- A geographic coordinate triple (lon, lat, alt). -/
structure Geo where
  lon : ℚ
  lat : ℚ
  alt : ℚ
  deriving DecidableEq

/-- Modelled from the spec: the coordinateSystems module (GeographicSystem,
TangentPlaneCartesianSystem) used by all three scripts is an external
collaborator whose source is not in the repository.  Per the spec it
provides geographic-to-ECEF and ECEF-to-local-tangent-plane conversions
with an exact round trip and a single fixed anchor per run.  It is
modelled as an exact chart: ECEF coordinates are identified with the
geographic triple itself, and the local tangent plane anchored at
(anchorLon, anchorLat, 0) is the translation taking the anchor to the
origin, so fromECEF (toECEF x) = x and fromLocal (toLocal x) = x hold
exactly. -/
def toECEF (g : Geo) : ℚ × ℚ × ℚ := (g.lon, g.lat, g.alt)

/-- Modelled from the spec: inverse of toECEF, see toECEF. -/
def fromECEF (e : ℚ × ℚ × ℚ) : Geo := ⟨e.1, e.2.1, e.2.2⟩

/-- Modelled from the spec: ECEF to local tangent plane at the given
anchor (anchorLon, anchorLat), see toECEF. -/
def toLocal (anchor : ℚ × ℚ) (e : ℚ × ℚ × ℚ) : ℚ × ℚ × ℚ :=
  (e.1 - anchor.1, e.2.1 - anchor.2, e.2.2)

/-- Modelled from the spec: inverse of toLocal, see toECEF. -/
def fromLocal (anchor : ℚ × ℚ) (l : ℚ × ℚ × ℚ) : ℚ × ℚ × ℚ :=
  (l.1 + anchor.1, l.2.1 + anchor.2, l.2.2)

/-- Arithmetic mean of a list of rationals (pandas Series.mean on a
non-empty series; on the empty list the value is irrelevant, callers
guard emptiness through meanOf). -/
def mean0 (l : List ℚ) : ℚ := l.sum / l.length

/-- pandas mean of a column over a selection: NaN on the empty selection
(modelled as none), the arithmetic mean otherwise. -/
def meanOf (f : Level → ℚ) (l : List Level) : Option ℚ :=
  if l.isEmpty then none else some (mean0 (l.map f))

/-- Pair every level with its positional index (the pandas row index). -/
def withIdx : List Level → ℕ → List (ℕ × Level)
  | [], _ => []
  | L :: ls, n => (n, L) :: withIdx ls (n + 1)

def enumP (p : Profile) : List (ℕ × Level) := withIdx p 0

/-- Strict lexicographic order on (key value, row index) pairs: this is the
order by which pandas nsmallest(k) ranks rows, with keep equal to first
breaking key ties by row position. -/
def lexLt (a b : ℚ × ℕ) : Bool :=
  decide (a.1 < b.1) || (decide (a.1 = b.1) && decide (a.2 < b.2))

/-- sounding.<key>.nsmallest(k).index : a row is selected exactly when
fewer than k rows rank strictly before it in (key value, row index)
lexicographic order.  The script only ever takes column means over the
selection, so the order in which the selected rows are listed is
irrelevant; they are returned in row order. -/
def nsmallestKey (key : Level → ℚ) (k : ℕ) (p : Profile) : List Level :=
  ((enumP p).filter (fun il =>
    decide (((enumP p).filter (fun jm => lexLt (key jm.2, jm.1) (key il.2, il.1))).length < k))).map
    (fun il => il.2)

/-- selection = (sounding.alt - balloon_alt).abs().nsmallest(k).index
(k = 10 in from_env_sounding.py, k = 2 in from_rap.py). -/
def kNearestSel (k : ℕ) (p : Profile) (a : ℚ) : List Level :=
  nsmallestKey (fun L => |L.alt - a|) k p

/-- sel1 = (sounding.alt - balloon_alt)[sounding.alt - balloon_alt < 0].nlargest(k).index :
the k levels strictly below the target altitude that are nearest to it
(nlargest of alt - a equals nsmallest of a - alt, ties kept by row order). -/
def selBelow (k : ℕ) (p : Profile) (a : ℚ) : List Level :=
  nsmallestKey (fun L => a - L.alt) k (p.filter (fun L => decide (L.alt - a < 0)))

/-- sel2 = (sounding.alt - balloon_alt)[sounding.alt - balloon_alt > 0].nsmallest(k).index. -/
def selAbove (k : ℕ) (p : Profile) (a : ℚ) : List Level :=
  nsmallestKey (fun L => L.alt - a) k (p.filter (fun L => decide (L.alt - a > 0)))

/-- Series.min of a list of rationals, none when empty (NaN in pandas). -/
def minimumQ : List ℚ → Option ℚ
  | [] => none
  | x :: xs => some (match minimumQ xs with | none => x | some m => min x m)

/-- The gap test np.abs(sounding.alt - balloon_alt).min() > 100.  On an
empty profile the min is NaN and the comparison is False in Python. -/
def gapCond (p : Profile) (a : ℚ) : Bool :=
  match minimumQ (p.map (fun L => |L.alt - a|)) with
  | some m => decide (m > 100)
  | none => false

/-- The gap-bridging override of from_env_sounding.py lines 124 to 138:
means of lat, lon, alt, Time over the ten nearest levels below (sel1) and
above (sel2), projected through ECEF into the local tangent plane; the
result assigned to (delta_x, delta_y) is movement/(t2-t1), a velocity. -/
def gapVel (p : Profile) (anchor : ℚ × ℚ) (a : ℚ) : ℚ × ℚ :=
  let s1 := selBelow 10 p a
  let s2 := selAbove 10 p a
  let lat1 := mean0 (s1.map (fun L => L.lat))
  let lon1 := mean0 (s1.map (fun L => L.lon))
  let alt1 := mean0 (s1.map (fun L => L.alt))
  let t1 := mean0 (s1.map (fun L => L.time))
  let lat2 := mean0 (s2.map (fun L => L.lat))
  let lon2 := mean0 (s2.map (fun L => L.lon))
  let alt2 := mean0 (s2.map (fun L => L.alt))
  let t2 := mean0 (s2.map (fun L => L.time))
  let l1 := toLocal anchor (toECEF ⟨lon1, lat1, alt1⟩)
  let l2 := toLocal anchor (toECEF ⟨lon2, lat2, alt2⟩)
  ((l2.1 - l1.1) / (t2 - t1), (l2.2.1 - l1.2.1) / (t2 - t1))

/-- The default ascent deltas: delta_x = interval * mean u, delta_y =
interval * mean v over the ten nearest levels (none when the profile is
empty, where pandas produces NaN). -/
def kDeltas (interval : ℚ) (p : Profile) (a : ℚ) : Option (ℚ × ℚ) :=
  match meanOf (fun L => L.u) (kNearestSel 10 p a), meanOf (fun L => L.v) (kNearestSel 10 p a) with
  | some um, some vm => some (interval * um, interval * vm)
  | _, _ => none

/-- Horizontal deltas of one ascent step of from_env_sounding.py lines
113 to 138: the k-nearest mean deltas, overridden by the gap-bridging
velocity when the gap condition holds, gps is available, and both a
below and an above selection exist. -/
def ascentDeltas (p : Profile) (gps : Bool) (anchor : ℚ × ℚ) (interval : ℚ) (a : ℚ) :
    Option (ℚ × ℚ) :=
  match kDeltas interval p a with
  | none => none
  | some d =>
    if gapCond p a && gps then
      if !(selBelow 10 p a).isEmpty && !(selAbove 10 p a).isEmpty then some (gapVel p anchor a)
      else some d
    else some d

/-- Lines 140 to 150: project the balloon into the local tangent plane,
add the deltas, project back to geographic coordinates. -/
def stepMove (anchor : ℚ × ℚ) (s : SimState) (dx dy dz : ℚ) : SimState :=
  let e := toECEF ⟨s.lon, s.lat, s.alt⟩
  let l := toLocal anchor e
  let e2 := fromLocal anchor (l.1 + dx, l.2.1 + dy, l.2.2 + dz)
  let g := fromECEF e2
  ⟨g.lon, g.lat, g.alt⟩

/-- One iteration body of the ascent loop: deltas, then the tangent-plane
round trip with delta_z = interval * rise_rate. -/
def ascentStep (p : Profile) (gps : Bool) (anchor : ℚ × ℚ) (interval : ℚ) (s : SimState) :
    Option SimState :=
  (ascentDeltas p gps anchor interval s.alt).map
    (fun d => stepMove anchor s d.1 d.2 (interval * rise_rate))

/-- The ascent loop, while counter <= time_to_cutdown, with counter =
interval * k.  Each iteration appends the new position with t = the
counter value before the increment.  Fuel-indexed; none means the fuel
ran out before the guard turned false (the Python loop would still be
running) or a step was undefined. -/
def ascentLoop (p : Profile) (gps : Bool) (anchor : ℚ × ℚ) (interval cutdown : ℚ) :
    ℕ → ℕ → SimState → List TrackPt → Option (SimState × List TrackPt)
  | 0, k, s, trk => if interval * k ≤ cutdown then none else some (s, trk)
  | f + 1, k, s, trk =>
    if interval * k ≤ cutdown then
      match ascentStep p gps anchor interval s with
      | none => none
      | some s2 =>
        ascentLoop p gps anchor interval cutdown f (k + 1) s2
          (trk ++ [⟨s2.lon, s2.lat, s2.alt, interval * k⟩])
    else some (s, trk)

/-- The complete ascent phase from counter = 0 and an empty track.  The
fuel is explicit; a some result certifies that the loop guard genuinely
turned false within that many iterations. -/
def ascentRun (p : Profile) (gps : Bool) (anchor : ℚ × ℚ) (interval cutdown : ℚ) (f : ℕ)
    (s : SimState) : Option (SimState × List TrackPt) :=
  ascentLoop p gps anchor interval cutdown f 0 s []

/-- Sweep of ground.<key> keeping the value at the first row minimising
the absolute difference to the target (pandas idxmin with skipna). -/
def foldNearest (key : GroundPt → ℚ) (tgt : ℚ) : Terrain → ℚ → ℚ
  | [], b => b
  | r :: rs, b => foldNearest key tgt rs (if |key r - tgt| < |b - tgt| then key r else b)

/-- ground.<key>[(ground.<key> - x).abs().idxmin(skipna=True)] : the key
value of the first row whose key is nearest to the target; none on an
empty terrain set (where idxmin raises). -/
def nearestKeyVal (key : GroundPt → ℚ) (g : Terrain) (tgt : ℚ) : Option ℚ :=
  match g with
  | [] => none
  | r :: rs => some (foldNearest key tgt rs (key r))

/-- ground.alt[(ground.lat == nearest lat value) & (ground.lon == nearest
lon value)].values[0] : the elevation of the first row carrying both
independently nearest axis values; none models the IndexError raised when
no such row exists. -/
def groundElev (g : Terrain) (lon lat : ℚ) : Option ℚ :=
  match nearestKeyVal (fun r => r.lat) g lat, nearestKeyVal (fun r => r.lon) g lon with
  | some la, some lo =>
    ((g.filter (fun r => decide (r.lat = la) && decide (r.lon = lo))).head?).map (fun r => r.alt)
  | _, _ => none

/-- landed = (ground.alt[...] > balloon_alt).values[0]. -/
def isLanded (g : Terrain) (lon lat alt : ℚ) : Option Bool :=
  (groundElev g lon lat).map (fun e => decide (e > alt))

/-- One iteration body of the descent loop of from_env_sounding.py lines
165 to 209: deltas (interval / mean fall_rate) * mean wind with the same
gap-bridging override as ascent, the tangent-plane round trip with
delta_z = -interval, and the elapsed time advanced by
interval / mean fall_rate. -/
def descentStep (p : Profile) (gps : Bool) (anchor : ℚ × ℚ) (interval : ℚ) (s : SimState)
    (t : ℚ) : Option (SimState × ℚ) :=
  let sel := kNearestSel 10 p s.alt
  match meanOf (fun L => L.fall_rate) sel, meanOf (fun L => L.u) sel, meanOf (fun L => L.v) sel with
  | some fm, some um, some vm =>
    let d0 : ℚ × ℚ := (interval / fm * um, interval / fm * vm)
    let d : ℚ × ℚ :=
      if gapCond p s.alt && gps then
        if !(selBelow 10 p s.alt).isEmpty && !(selAbove 10 p s.alt).isEmpty then
          gapVel p anchor s.alt
        else d0
      else d0
    some (stepMove anchor s d.1 d.2 (-interval), t + interval / fm)
  | _, _, _ => none

/-- The descent loop, while not landed (landed starts False, so the body
always runs at least once).  Fuel-indexed: none means the fuel ran out
with the balloon still above ground (the Python loop would still be
running), a step was undefined, or the landed lookup raised. -/
def descentLoop (p : Profile) (gps : Bool) (anchor : ℚ × ℚ) (g : Terrain) (interval : ℚ) :
    ℕ → SimState → ℚ → List TrackPt → Option (SimState × List TrackPt)
  | 0, _, _, _ => none
  | f + 1, s, t, trk =>
    match descentStep p gps anchor interval s t with
    | none => none
    | some (s2, t2) =>
      let trk2 := trk ++ [⟨s2.lon, s2.lat, s2.alt, t2⟩]
      match isLanded g s2.lon s2.lat s2.alt with
      | none => none
      | some true => some (s2, trk2)
      | some false => descentLoop p gps anchor g interval f s2 t2 trk2

/-- A one-level profile with zero wind (fall rate 1). -/
def P0 : Profile := [⟨0, 0, 0, 1, 0, 0, 0⟩]

/-- A one-level profile with zero wind and fall rate 10. -/
def P10 : Profile := [⟨0, 0, 0, 10, 0, 0, 0⟩]

/-- A one-level profile with wind u = 3 at altitude 0. -/
def P1 : Profile := [⟨0, 3, 0, 10, 0, 0, 0⟩]

/-- A one-level profile with negative fall rate -10 and wind u = 1. -/
def Pneg : Profile := [⟨0, 1, 0, -10, 0, 0, 0⟩]

/-- Three tracked levels: two below 600 m (altitudes 0 and 200, at
longitudes 0 and 60, times 0 and 20) and one above (altitude 1000 at
longitude 100, time 100); all gaps to 600 m exceed 100 m. -/
def Pgap : Profile :=
  [⟨0, 0, 0, 10, 0, 0, 0⟩, ⟨200, 0, 0, 10, 0, 60, 20⟩, ⟨1000, 0, 0, 10, 0, 100, 100⟩]

/-- Three levels all at altitude 100 (distinguished by wind u). -/
def P3 : Profile := [⟨100, 0, 0, 10, 0, 0, 0⟩, ⟨100, 1, 0, 10, 0, 0, 0⟩, ⟨100, 2, 0, 10, 0, 0, 0⟩]

/-- A one-point flat terrain at elevation 0. -/
def G0 : Terrain := [⟨0, 0, 0⟩]

/-- An irregular two-point terrain: no row carries both the nearest
longitude and the nearest latitude to the query point (5, 10). -/
def Girr : Terrain := [⟨0, 10, 5⟩, ⟨5, 0, 7⟩]

/-- A one-point terrain with ground elevation 100. -/
def GHill : Terrain := [⟨0, 0, 100⟩]

/-- Formalisation of the claim wording for the gap-bridging sampler
(refinement comparison for C7): select exactly one level, the nearest
strictly below and the nearest strictly above; when both exist, the
per-step horizontal displacement is the step duration times the velocity
obtained by dividing their local-tangent-plane displacement by their time
difference. -/
def gapDeltaSpecC7 (p : Profile) (anchor : ℚ × ℚ) (interval : ℚ) (a : ℚ) : Option (ℚ × ℚ) :=
  match selBelow 1 p a, selAbove 1 p a with
  | [Lb], [La] =>
    let l1 := toLocal anchor (toECEF ⟨Lb.lon, Lb.lat, Lb.alt⟩)
    let l2 := toLocal anchor (toECEF ⟨La.lon, La.lat, La.alt⟩)
    some (interval * ((l2.1 - l1.1) / (La.time - Lb.time)),
          interval * ((l2.2.1 - l1.2.1) / (La.time - Lb.time)))
  | _, _ => none

/-- Formalisation of the claim wording for C4 restricted to a benign
family of inputs (one-level zero-wind profile with fall rate 10, flat
one-point terrain at 0, varying start altitude): some uniform step bound
M makes the descent loop finish for every start altitude.  The claim of
a bounded descent implies this. -/
def descentBoundedClaim : Prop :=
  ∃ M : ℕ, ∀ a : ℚ, ∃ res, descentLoop P10 false (0, 0) G0 50 M ⟨0, 0, a⟩ 0 [] = some res

/-! Helper lemmas about the embedded operations. -/

theorem stepMove_def (anchor : ℚ × ℚ) (s : SimState) (dx dy dz : ℚ) :
    stepMove anchor s dx dy dz = ⟨s.lon + dx, s.lat + dy, s.alt + dz⟩ := by
  simp only [stepMove, toECEF, toLocal, fromLocal, fromECEF, SimState.mk.injEq]
  exact ⟨by ring, by ring, trivial⟩

theorem lexLt_irrefl (z : ℚ × ℕ) : lexLt z z = false := by
  simp [lexLt]

theorem lexLt_trans {a b c : ℚ × ℕ} (h1 : lexLt a b = true) (h2 : lexLt b c = true) :
    lexLt a c = true := by
  simp only [lexLt, Bool.or_eq_true, Bool.and_eq_true, decide_eq_true_eq] at h1 h2 ⊢
  rcases h1 with h1 | ⟨he1, hl1⟩ <;> rcases h2 with h2 | ⟨he2, hl2⟩
  · exact Or.inl (lt_trans h1 h2)
  · exact Or.inl (he2 ▸ h1)
  · exact Or.inl (he1 ▸ h2)
  · exact Or.inr ⟨he1.trans he2, lt_trans hl1 hl2⟩

theorem exists_lexLt_min (key : Level → ℚ) :
    ∀ l : List (ℕ × Level), l ≠ [] →
      ∃ x ∈ l, ∀ y ∈ l, lexLt (key y.2, y.1) (key x.2, x.1) = false
  | [], h => absurd rfl h
  | a :: l, _ => by
    cases l with
    | nil =>
      refine ⟨a, List.mem_singleton_self a, ?_⟩
      intro y hy
      rw [List.mem_singleton.mp hy]
      exact lexLt_irrefl _
    | cons b bs =>
      obtain ⟨x, hxl, hx⟩ := exists_lexLt_min key (b :: bs) (List.cons_ne_nil b bs)
      set l := b :: bs with hl
      by_cases h : lexLt (key a.2, a.1) (key x.2, x.1) = true
      · refine ⟨a, List.mem_cons_self a l, ?_⟩
        intro y hy
        rcases List.mem_cons.mp hy with rfl | hyl
        · exact lexLt_irrefl _
        · by_contra hcon
          rw [Bool.not_eq_false] at hcon
          have := lexLt_trans hcon h
          rw [hx y hyl] at this
          exact Bool.false_ne_true this
      · refine ⟨x, List.mem_cons_of_mem a hxl, ?_⟩
        intro y hy
        rcases List.mem_cons.mp hy with rfl | hyl
        · exact Bool.not_eq_true _ |>.mp h
        · exact hx y hyl

theorem snd_mem_of_mem_withIdx :
    ∀ (p : List Level) (n : ℕ) (x : ℕ × Level), x ∈ withIdx p n → x.2 ∈ p
  | [], _, _, h => absurd h (List.not_mem_nil _)
  | L :: ls, n, x, h => by
    rcases List.mem_cons.mp h with rfl | h2
    · exact List.mem_cons_self _ _
    · exact List.mem_cons_of_mem _ (snd_mem_of_mem_withIdx ls (n + 1) x h2)

theorem withIdx_ne_nil (p : List Level) (hp : p ≠ []) (n : ℕ) : withIdx p n ≠ [] := by
  cases p with
  | nil => exact absurd rfl hp
  | cons L ls => simp [withIdx]

theorem mem_nsmallestKey (key : Level → ℚ) (k : ℕ) (p : Profile) (L : Level)
    (h : L ∈ nsmallestKey key k p) : L ∈ p := by
  unfold nsmallestKey at h
  obtain ⟨x, hx, rfl⟩ := List.mem_map.mp h
  exact snd_mem_of_mem_withIdx p 0 x (List.mem_filter.mp hx).1

theorem nsmallestKey_ne_nil (key : Level → ℚ) (k : ℕ) (hk : 0 < k) (p : Profile)
    (hp : p ≠ []) : nsmallestKey key k p ≠ [] := by
  obtain ⟨x, hxl, hx⟩ := exists_lexLt_min key (enumP p) (withIdx_ne_nil p hp 0)
  have hfilter : (enumP p).filter (fun jm => lexLt (key jm.2, jm.1) (key x.2, x.1)) = [] := by
    rw [List.filter_eq_nil_iff]
    intro y hy
    rw [hx y hy]
    exact Bool.false_ne_true
  have hmem : x.2 ∈ nsmallestKey key k p := by
    unfold nsmallestKey
    refine List.mem_map_of_mem _ (List.mem_filter.mpr ⟨hxl, ?_⟩)
    rw [hfilter]
    simpa using hk
  exact List.ne_nil_of_mem hmem

theorem kNearestSel_ne_nil (k : ℕ) (hk : 0 < k) (p : Profile) (hp : p ≠ []) (a : ℚ) :
    kNearestSel k p a ≠ [] :=
  nsmallestKey_ne_nil _ k hk p hp

theorem mem_kNearestSel (k : ℕ) (p : Profile) (a : ℚ) (L : Level)
    (h : L ∈ kNearestSel k p a) : L ∈ p :=
  mem_nsmallestKey _ k p L h

theorem list_sum_const (c : ℚ) : ∀ l : List ℚ, (∀ x ∈ l, x = c) → l.sum = l.length * c
  | [], _ => by simp
  | x :: xs, h => by
    rw [List.sum_cons, list_sum_const c xs (fun y hy => h y (List.mem_cons_of_mem x hy)),
      h x (List.mem_cons_self x xs), List.length_cons]
    push_cast
    ring

theorem mean0_const (l : List ℚ) (c : ℚ) (h : ∀ x ∈ l, x = c) (hne : l ≠ []) :
    mean0 l = c := by
  have hsum : l.sum = l.length * c := list_sum_const c l h
  have hlen : (l.length : ℚ) ≠ 0 := by
    have : l.length ≠ 0 := by simpa [List.length_eq_zero] using hne
    exact_mod_cast this
  rw [mean0, hsum, mul_comm, mul_div_assoc, div_self hlen, mul_one]

theorem meanOf_const (f : Level → ℚ) (l : List Level) (c : ℚ) (h : ∀ L ∈ l, f L = c)
    (hne : l ≠ []) : meanOf f l = some c := by
  rw [meanOf, if_neg (by simpa [List.isEmpty_iff] using hne)]
  refine congrArg some (mean0_const _ c ?_ (by simpa using hne))
  intro x hx
  obtain ⟨L, hL, rfl⟩ := List.mem_map.mp hx
  exact h L hL

theorem P0_ne : P0 ≠ [] := by simp [P0]

theorem P0_zw : ∀ L ∈ P0, L.u = 0 ∧ L.v = 0 := by
  intro L hL
  rw [P0, List.mem_singleton] at hL
  rw [hL]
  exact ⟨rfl, rfl⟩

theorem P10_ne : P10 ≠ [] := by simp [P10]

theorem P10_cf : ∀ L ∈ P10, L.u = 0 ∧ L.v = 0 ∧ L.fall_rate = 10 := by
  intro L hL
  rw [P10, List.mem_singleton] at hL
  rw [hL]
  exact ⟨rfl, rfl, rfl⟩

/-- A zero-wind ascent step leaves longitude and latitude unchanged and
raises the altitude by interval * rise_rate, whatever the anchor. -/
theorem ascentStep_zeroWind (p : Profile) (hp : p ≠ []) (hz : ∀ L ∈ p, L.u = 0 ∧ L.v = 0)
    (anchor : ℚ × ℚ) (interval : ℚ) (s : SimState) :
    ascentStep p false anchor interval s = some ⟨s.lon, s.lat, s.alt + interval * rise_rate⟩ := by
  have hsel := kNearestSel_ne_nil 10 (by norm_num) p hp s.alt
  have hu : meanOf (fun L => L.u) (kNearestSel 10 p s.alt) = some 0 :=
    meanOf_const _ _ 0 (fun L hL => (hz L (mem_kNearestSel 10 p s.alt L hL)).1) hsel
  have hv : meanOf (fun L => L.v) (kNearestSel 10 p s.alt) = some 0 :=
    meanOf_const _ _ 0 (fun L hL => (hz L (mem_kNearestSel 10 p s.alt L hL)).2) hsel
  simp [ascentStep, ascentDeltas, kDeltas, hu, hv, stepMove_def]

/-- A zero-wind descent step over a profile whose fall rate is the
constant c, with interval 50 m, leaves longitude and latitude unchanged,
lowers the altitude by 50 m and advances the elapsed time by 50 / c
seconds, whatever the anchor. -/
theorem descentStep_constFall (p : Profile) (hp : p ≠ []) (c : ℚ)
    (hz : ∀ L ∈ p, L.u = 0 ∧ L.v = 0 ∧ L.fall_rate = c) (anchor : ℚ × ℚ) (s : SimState)
    (t : ℚ) :
    descentStep p false anchor 50 s t = some (⟨s.lon, s.lat, s.alt - 50⟩, t + 50 / c) := by
  have hsel := kNearestSel_ne_nil 10 (by norm_num) p hp s.alt
  have hf : meanOf (fun L => L.fall_rate) (kNearestSel 10 p s.alt) = some c :=
    meanOf_const _ _ c (fun L hL => (hz L (mem_kNearestSel 10 p s.alt L hL)).2.2) hsel
  have hu : meanOf (fun L => L.u) (kNearestSel 10 p s.alt) = some 0 :=
    meanOf_const _ _ 0 (fun L hL => (hz L (mem_kNearestSel 10 p s.alt L hL)).1) hsel
  have hv : meanOf (fun L => L.v) (kNearestSel 10 p s.alt) = some 0 :=
    meanOf_const _ _ 0 (fun L hL => (hz L (mem_kNearestSel 10 p s.alt L hL)).2.1) hsel
  simp [descentStep, hf, hu, hv, stepMove_def, sub_eq_add_neg]

/-- The flat one-point terrain G0 reports elevation 0 everywhere, so the
landed test is exactly 0 > alt. -/
theorem isLanded_G0 (lon lat alt : ℚ) : isLanded G0 lon lat alt = some (decide ((0:ℚ) > alt)) :=
  rfl

/-- Running the ascent loop over any non-empty zero-wind profile is the
same as running it over the canonical one-level zero-wind profile P0,
for any anchors. -/
theorem ascentLoop_zeroWind_congr (p : Profile) (hp : p ≠ [])
    (hz : ∀ L ∈ p, L.u = 0 ∧ L.v = 0) (anchor anchor2 : ℚ × ℚ) (interval cutdown : ℚ) :
    ∀ (f k : ℕ) (s : SimState) (trk : List TrackPt),
      ascentLoop p false anchor interval cutdown f k s trk
        = ascentLoop P0 false anchor2 interval cutdown f k s trk := by
  intro f
  induction f with
  | zero => intro k s trk; rfl
  | succ f ih =>
    intro k s trk
    by_cases h : interval * (k : ℚ) ≤ cutdown
    · simp only [ascentLoop, if_pos h, ascentStep_zeroWind p hp hz anchor interval,
        ascentStep_zeroWind P0 P0_ne P0_zw anchor2 interval]
      exact ih _ _ _
    · simp only [ascentLoop, if_neg h]

/-- Running the descent loop over any non-empty zero-wind fall-rate-10
profile and any flat-at-0 terrain is the same as running it over the
canonical profile P10 and terrain G0, for any anchors. -/
theorem descentLoop_constFall_congr (p : Profile) (g : Terrain) (hp : p ≠ [])
    (hz : ∀ L ∈ p, L.u = 0 ∧ L.v = 0 ∧ L.fall_rate = 10)
    (hG : ∀ lon lat alt, isLanded g lon lat alt = some (decide ((0:ℚ) > alt)))
    (anchor anchor2 : ℚ × ℚ) :
    ∀ (f : ℕ) (s : SimState) (t : ℚ) (trk : List TrackPt),
      descentLoop p false anchor g 50 f s t trk
        = descentLoop P10 false anchor2 G0 50 f s t trk := by
  intro f
  induction f with
  | zero => intro s t trk; rfl
  | succ f ih =>
    intro s t trk
    simp only [descentLoop, descentStep_constFall p hp 10 hz anchor,
      descentStep_constFall P10 P10_ne 10 P10_cf anchor2, hG, isLanded_G0]
    cases hdec : decide ((0:ℚ) > s.alt - 50) with
    | false => simp only [hdec]; exact ih _ _ _
    | true => simp only [hdec]

/-- With only the canonical profile P10 and flat terrain G0, a descent
that still has at least 50 * fuel metres of altitude above ground cannot
land within that fuel: the loop runs out of fuel still descending. -/
theorem descentLoop_P10_stuck :
    ∀ (f : ℕ) (s : SimState) (t : ℚ) (trk : List TrackPt), 50 * (f : ℚ) ≤ s.alt →
      descentLoop P10 false (0, 0) G0 50 f s t trk = none := by
  intro f
  induction f with
  | zero => intro s t trk h; rfl
  | succ f ih =>
    intro s t trk h
    push_cast at h
    have hf0 : (0 : ℚ) ≤ (f : ℚ) := Nat.cast_nonneg f
    have hnl : ¬ ((0:ℚ) > s.alt - 50) := by linarith
    simp only [descentLoop, descentStep_constFall P10 P10_ne 10 P10_cf (0, 0), isLanded_G0,
      decide_eq_false hnl]
    refine ih _ _ _ ?_
    show 50 * (f : ℚ) ≤ s.alt - 50
    linarith

/-- One-step unfolding of the descent loop at positive fuel. -/
theorem descentLoop_succ_eq (p : Profile) (gps : Bool) (anchor : ℚ × ℚ) (g : Terrain)
    (interval : ℚ) (f : ℕ) (s : SimState) (t : ℚ) (trk : List TrackPt) :
    descentLoop p gps anchor g interval (f + 1) s t trk =
      match descentStep p gps anchor interval s t with
      | none => none
      | some (s2, t2) =>
        match isLanded g s2.lon s2.lat s2.alt with
        | none => none
        | some true => some (s2, trk ++ [⟨s2.lon, s2.lat, s2.alt, t2⟩])
        | some false =>
          descentLoop p gps anchor g interval f s2 t2 (trk ++ [⟨s2.lon, s2.lat, s2.alt, t2⟩]) :=
  rfl

/-- For any non-empty profile with zero wind and a constant fall rate c,
and any flat-at-0 terrain lookup, the descent lands once the fuel
exceeds altitude / 50: each step removes exactly the 50 m interval and
the landed test fires strictly below 0, independently of c. -/
theorem descentLoop_constFall_lands (p : Profile) (g : Terrain) (hp : p ≠ []) (c : ℚ)
    (hz : ∀ L ∈ p, L.u = 0 ∧ L.v = 0 ∧ L.fall_rate = c)
    (hG : ∀ lon lat alt, isLanded g lon lat alt = some (decide ((0:ℚ) > alt)))
    (anchor : ℚ × ℚ) :
    ∀ (f : ℕ) (s : SimState) (t : ℚ) (trk : List TrackPt), s.alt < 50 * ((f : ℚ) + 1) →
      (descentLoop p false anchor g 50 (f + 1) s t trk).isSome = true := by
  intro f
  induction f with
  | zero =>
    intro s t trk h
    push_cast at h
    have hl : (0:ℚ) > s.alt - 50 := by linarith
    rw [descentLoop_succ_eq, descentStep_constFall p hp c hz anchor]
    simp only [hG, decide_eq_true hl, Option.isSome_some]
  | succ f ih =>
    intro s t trk h
    push_cast at h
    rw [descentLoop_succ_eq, descentStep_constFall p hp c hz anchor]
    by_cases hl : (0:ℚ) > s.alt - 50
    · simp only [hG, decide_eq_true hl, Option.isSome_some]
    · simp only [hG, decide_eq_false hl]
      refine ih _ _ _ ?_
      show s.alt - 50 < 50 * ((f : ℚ) + 1)
      linarith

/-! Claim theorems. -/

/-- C1 (amended): for the ascent end-to-end scenario — launch state
(lat 43.7, lon -76.0, alt 300 m), rise_rate 6.09 m/s, any non-empty
profile with zero wind at every level, time_to_cutdown 600 s, dt = 10 s —
the loop guard counter <= time_to_cutdown admits the counter values 0
through 600, so 61 integration steps run and the ascent phase ends with
altitude exactly 300 + 6.09 * 610 = 4014.9 m (not 3954 m as claimed),
with longitude and latitude unchanged from launch and the last recorded
elapsed time equal to 600 s. -/
theorem C1_ascent_end_to_end (p : Profile) (hp : p ≠ [])
    (hz : ∀ L ∈ p, L.u = 0 ∧ L.v = 0) (anchor : ℚ × ℚ) :
    (ascentRun p false anchor 10 600 61 ⟨-76, 437/10, 300⟩).map (fun r => r.1) =
        some ⟨-76, 437/10, 40149/10⟩ ∧
      (ascentRun p false anchor 10 600 61 ⟨-76, 437/10, 300⟩).map (fun r => r.2.length) =
        some 61 ∧
      (ascentRun p false anchor 10 600 61 ⟨-76, 437/10, 300⟩).map
          (fun r => (r.2.map TrackPt.t).getLast?) = some (some 600) ∧
      (ascentRun p false anchor 10 600 61 ⟨-76, 437/10, 300⟩).map
          (fun r => r.2.all (fun q => decide (q.lon = -76) && decide (q.lat = 437/10))) =
        some true := by
  unfold ascentRun
  rw [ascentLoop_zeroWind_congr p hp hz anchor (0, 0) 10 600]
  norm_num [ascentLoop, ascentStep_zeroWind P0 P0_ne P0_zw, rise_rate]

/-- Witness for C1: the hypotheses hold at the concrete one-level
zero-wind profile P0 and the conclusion follows by the theorem. -/
theorem C1_ascent_end_to_end_witness :
    (P0 ≠ [] ∧ ∀ L ∈ P0, L.u = 0 ∧ L.v = 0) ∧
      (ascentRun P0 false (0, 0) 10 600 61 ⟨-76, 437/10, 300⟩).map (fun r => r.1) =
        some ⟨-76, 437/10, 40149/10⟩ :=
  ⟨⟨P0_ne, P0_zw⟩, (C1_ascent_end_to_end P0 P0_ne P0_zw (0, 0)).1⟩

/-- Counterexample to C1 as stated: at the concrete zero-wind profile P0
the ascent phase of the scenario ends at altitude 4014.9 m, which is not
the claimed 3954 m. -/
theorem C1_claim_counterexample :
    (ascentRun P0 false (0, 0) 10 600 61 ⟨-76, 437/10, 300⟩).map (fun r => r.1.alt) =
      some (40149 / 10) ∧ (40149 / 10 : ℚ) ≠ 3954 := by
  constructor
  · norm_num [ascentRun, ascentLoop, ascentStep_zeroWind P0 P0_ne P0_zw, rise_rate]
  · norm_num

/-- C2 (amended): for the descent end-to-end scenario — start at 1000 m,
every level of a non-empty profile has zero wind and fall rate 10 m/s,
the terrain lookup reports elevation 0 everywhere, altitude step 50 m —
the descent loop performs exactly 21 steps before the landing test holds
(the test ground > alt is strict, so the step reaching altitude 0 does
not land and one further step to -50 m is taken), and the total elapsed
descent time is 21 * 50 / 10 = 105 s; with fuel for only 20 steps the
loop is still running. -/
theorem C2_descent_end_to_end (p : Profile) (g : Terrain) (hp : p ≠ [])
    (hz : ∀ L ∈ p, L.u = 0 ∧ L.v = 0 ∧ L.fall_rate = 10)
    (hG : ∀ lon lat alt, isLanded g lon lat alt = some (decide ((0:ℚ) > alt)))
    (anchor : ℚ × ℚ) :
    (descentLoop p false anchor g 50 21 ⟨0, 0, 1000⟩ 0 []).map (fun r => r.2.length) =
        some 21 ∧
      (descentLoop p false anchor g 50 21 ⟨0, 0, 1000⟩ 0 []).map
          (fun r => (r.2.map TrackPt.t).getLast?) = some (some 105) ∧
      descentLoop p false anchor g 50 20 ⟨0, 0, 1000⟩ 0 [] = none := by
  rw [descentLoop_constFall_congr p g hp hz hG anchor (0, 0)]
  rw [descentLoop_constFall_congr p g hp hz hG anchor (0, 0)]
  norm_num [descentLoop, descentStep_constFall P10 P10_ne 10 P10_cf, isLanded_G0]

/-- Witness for C2: the hypotheses hold at the concrete profile P10 and
terrain G0 and the conclusion follows by the theorem. -/
theorem C2_descent_end_to_end_witness :
    (P10 ≠ []) ∧
      (descentLoop P10 false (0, 0) G0 50 21 ⟨0, 0, 1000⟩ 0 []).map (fun r => r.2.length) =
        some 21 :=
  ⟨P10_ne, (C2_descent_end_to_end P10 G0 P10_ne P10_cf isLanded_G0 (0, 0)).1⟩

/-- Counterexample to C2 as stated: at the concrete profile P10 and flat
terrain G0 the scenario descent needs 21 steps, not the claimed 20 — with
fuel 20 the loop has not yet landed, and the completed run records 21
track points. -/
theorem C2_claim_counterexample :
    descentLoop P10 false (0, 0) G0 50 20 ⟨0, 0, 1000⟩ 0 [] = none ∧
      (descentLoop P10 false (0, 0) G0 50 21 ⟨0, 0, 1000⟩ 0 []).map (fun r => r.2.length) =
        some 21 ∧ (21 : ℕ) ≠ 20 := by
  refine ⟨?_, ?_, by norm_num⟩ <;>
    norm_num [descentLoop, descentStep_constFall P10 P10_ne 10 P10_cf, isLanded_G0]

/-- C3 (amended): for every time_to_cutdown strictly below 0 the ascent
loop executes zero integration steps and appends nothing to the track:
whatever the profile, gps flag, anchor, interval, fuel and start state,
the ascent phase returns the initial balloon state unchanged with an
empty track, and that state is what descent starts from.  (The claim
additionally asserted this at time_to_cutdown = 0, where the guard
0 <= 0 admits one step; see the counterexample.) -/
theorem C3_no_ascent_when_negative (p : Profile) (gps : Bool) (anchor : ℚ × ℚ)
    (interval cutdown : ℚ) (hc : cutdown < 0) (f : ℕ) (s : SimState) :
    ascentRun p gps anchor interval cutdown f s = some (s, []) := by
  cases f with
  | zero => simp [ascentRun, ascentLoop, not_le.mpr hc]
  | succ f => simp [ascentRun, ascentLoop, not_le.mpr hc]

/-- Witness for C3: concrete instance with time_to_cutdown = -1. -/
theorem C3_no_ascent_when_negative_witness :
    ((-1 : ℚ) < 0) ∧ ascentRun P0 false (0, 0) 10 (-1) 5 ⟨0, 0, 300⟩ = some (⟨0, 0, 300⟩, []) :=
  ⟨by norm_num, C3_no_ascent_when_negative P0 false (0, 0) 10 (-1) (by norm_num) 5 ⟨0, 0, 300⟩⟩

/-- Counterexample to C3 as stated: at time_to_cutdown = 0 the ascent
loop guard 0 <= 0 holds, so one integration step runs (altitude rises
from 300 to 360.9 m and one track point is appended), not zero. -/
theorem C3_claim_counterexample :
    (ascentRun P0 false (0, 0) 10 0 1 ⟨0, 0, 300⟩).map (fun r => (r.1.alt, r.2.length)) =
      some (3609 / 10, 1) ∧ (1 : ℕ) ≠ 0 := by
  constructor
  · norm_num [ascentRun, ascentLoop, ascentStep_zeroWind P0 P0_ne P0_zw, rise_rate]
  · norm_num

/-- C4 (amended): the descent loop of the scripts has no maximum step
count and no NonTermination failure; it stops only when the landed test
fires (the spec itself flags the missing bound as an open design gap).
What does hold in the flat-chart model: for every non-empty zero-wind
profile with any constant positive fall rate and every flat-at-0 terrain
lookup, the descent from any start state does land in finitely many
steps — some finite fuel makes the loop return — because every step
lowers the altitude by exactly the 50 m interval, whatever the rate.
The step count needed is unbounded over inputs, which is what the
counterexample to the claimed uniform bound records. -/
theorem C4_descent_terminates (p : Profile) (g : Terrain) (hp : p ≠ []) (c : ℚ) (hc : 0 < c)
    (hz : ∀ L ∈ p, L.u = 0 ∧ L.v = 0 ∧ L.fall_rate = c)
    (hG : ∀ lon lat alt, isLanded g lon lat alt = some (decide ((0:ℚ) > alt)))
    (anchor : ℚ × ℚ) (s : SimState) (t : ℚ) :
    ∃ f : ℕ, (descentLoop p false anchor g 50 f s t []).isSome = true := by
  refine ⟨⌈s.alt / 50⌉.toNat + 1, ?_⟩
  apply descentLoop_constFall_lands p g hp c hz hG anchor
  have h1 : s.alt / 50 ≤ ((⌈s.alt / 50⌉ : ℤ) : ℚ) := Int.le_ceil _
  have h2 : ((⌈s.alt / 50⌉ : ℤ) : ℚ) ≤ ((⌈s.alt / 50⌉.toNat : ℕ) : ℚ) := by
    exact_mod_cast Int.self_le_toNat _
  have h3 : s.alt / 50 ≤ ((⌈s.alt / 50⌉.toNat : ℕ) : ℚ) := le_trans h1 h2
  have h4 : s.alt ≤ ((⌈s.alt / 50⌉.toNat : ℕ) : ℚ) * 50 :=
    (div_le_iff₀ (by norm_num : (0:ℚ) < 50)).mp h3
  linarith

/-- Witness for C4: concrete instance at the profile P10 (constant fall
rate 10 > 0), terrain G0 and a start 1000 m up. -/
theorem C4_descent_terminates_witness :
    (P10 ≠ [] ∧ (0:ℚ) < 10) ∧
      ∃ f : ℕ, (descentLoop P10 false (0, 0) G0 50 f ⟨0, 0, 1000⟩ 0 []).isSome = true :=
  ⟨⟨P10_ne, by norm_num⟩,
    C4_descent_terminates P10 G0 P10_ne 10 (by norm_num) P10_cf isLanded_G0 (0, 0)
      ⟨0, 0, 1000⟩ 0⟩

/-- Counterexample to C4 as stated (its negation): no uniform step bound
M makes the descent loop finish for every input — for fuel M the start
altitude 50 * M is still airborne after all M steps, so the loop is
never cut off by a max_descent_steps failure; it simply keeps running. -/
theorem C4_claim_counterexample : ¬ descentBoundedClaim := by
  rintro ⟨M, hM⟩
  obtain ⟨res, hres⟩ := hM (50 * M)
  have hstuck : descentLoop P10 false (0, 0) G0 50 M ⟨0, 0, 50 * M⟩ 0 [] = none :=
    descentLoop_P10_stuck M ⟨0, 0, 50 * M⟩ 0 [] (le_refl _)
  rw [hstuck] at hres
  cases hres

/-- C5 (amended): the descent step performs no fall-rate check.  Whenever
the sampled mean fall rate at the current altitude is some negative fm,
the step silently computes dt = interval / fm and proceeds: it returns a
normal state 50 m lower with elapsed time decreased by |50 / fm| (time
runs backwards), rather than surfacing any error. -/
theorem C5_negative_fall_rate_silent (p : Profile) (gps : Bool) (anchor : ℚ × ℚ)
    (s : SimState) (t : ℚ) (fm : ℚ)
    (hf : meanOf (fun L => L.fall_rate) (kNearestSel 10 p s.alt) = some fm) (hneg : fm < 0) :
    ∃ s2, descentStep p gps anchor 50 s t = some (s2, t + 50 / fm) ∧
      s2.alt = s.alt - 50 ∧ t + 50 / fm < t := by
  have hselne : kNearestSel 10 p s.alt ≠ [] := by
    intro hemp
    rw [hemp] at hf
    simp [meanOf] at hf
  have hE : ¬ (kNearestSel 10 p s.alt).isEmpty = true := by
    simpa [List.isEmpty_iff] using hselne
  have hdt : 50 / fm < 0 := div_neg_of_pos_of_neg (by norm_num) hneg
  have hu : meanOf (fun L => L.u) (kNearestSel 10 p s.alt) =
      some (mean0 ((kNearestSel 10 p s.alt).map (fun L => L.u))) := by
    rw [meanOf, if_neg hE]
  have hv : meanOf (fun L => L.v) (kNearestSel 10 p s.alt) =
      some (mean0 ((kNearestSel 10 p s.alt).map (fun L => L.v))) := by
    rw [meanOf, if_neg hE]
  have hstep : ∃ s2, descentStep p gps anchor 50 s t = some (s2, t + 50 / fm) ∧
      s2.alt = s.alt - 50 := by
    simp only [descentStep, hf, hu, hv]
    refine ⟨_, rfl, ?_⟩
    rw [stepMove_def]
    show s.alt + -50 = s.alt - 50
    ring
  obtain ⟨s2, h1, h2⟩ := hstep
  exact ⟨s2, h1, h2, by linarith⟩

/-- Witness for C5: at the concrete profile Pneg (every fall rate -10)
from 1000 m the sampled mean fall rate is -10 < 0 and the step proceeds
with dt = -5 s. -/
theorem C5_negative_fall_rate_silent_witness :
    (meanOf (fun L => L.fall_rate) (kNearestSel 10 Pneg (1000 : ℚ)) = some (-10) ∧
        (-10 : ℚ) < 0) ∧
      ∃ s2, descentStep Pneg false (0, 0) 50 ⟨0, 0, 1000⟩ 0 = some (s2, 0 + 50 / (-10)) ∧
        s2.alt = (1000 : ℚ) - 50 ∧ (0 : ℚ) + 50 / (-10) < 0 := by
  have hmean : meanOf (fun L => L.fall_rate) (kNearestSel 10 Pneg (1000 : ℚ)) = some (-10) := by
    norm_num [meanOf, mean0, kNearestSel, nsmallestKey, enumP, withIdx, lexLt, Pneg]
  exact ⟨⟨hmean, by norm_num⟩,
    C5_negative_fall_rate_silent Pneg false (0, 0) ⟨0, 0, 1000⟩ 0 (-10) hmean (by norm_num)⟩

/-- Counterexample to C5 as stated: with every fall rate -10 the descent
step from (0, 0, 1000 m) is not a fatal error: it silently returns the
state (lon -5, lat 0, alt 950) with elapsed time -5 s. -/
theorem C5_claim_counterexample :
    descentStep Pneg false (0, 0) 50 ⟨0, 0, 1000⟩ 0 = some (⟨-5, 0, 950⟩, -5) ∧
      descentStep Pneg false (0, 0) 50 ⟨0, 0, 1000⟩ 0 ≠ none := by
  have h : descentStep Pneg false (0, 0) 50 ⟨0, 0, 1000⟩ 0 = some (⟨-5, 0, 950⟩, -5) := by
    norm_num [descentStep, meanOf, mean0, kNearestSel, nsmallestKey, enumP, withIdx, lexLt,
      Pneg, stepMove_def]
  refine ⟨h, ?_⟩
  rw [h]
  simp

/-- C6 (confirmed): landing detection is monotonic in altitude — for a
fixed (lon, lat), if the landed test returns true at some altitude then
it returns true at every lower altitude at the same location. -/
theorem C6_isLanded_monotonic (g : Terrain) (lon lat alt alt2 : ℚ)
    (h : isLanded g lon lat alt = some true) (hlt : alt2 < alt) :
    isLanded g lon lat alt2 = some true := by
  rcases he : groundElev g lon lat with _ | e
  · rw [isLanded, he] at h
    simp at h
  · rw [isLanded, he] at h ⊢
    simp only [Option.map_some', Option.some.injEq, decide_eq_true_eq] at h ⊢
    linarith

/-- Witness for C6: over the one-point terrain GHill (elevation 100) the
landed test holds at 50 m and, by the theorem, at 0 m. -/
theorem C6_isLanded_monotonic_witness :
    (isLanded GHill 0 0 50 = some true ∧ (0 : ℚ) < 50) ∧
      isLanded GHill 0 0 0 = some true := by
  have h1 : isLanded GHill 0 0 50 = some true := by
    norm_num [isLanded, groundElev, nearestKeyVal, foldNearest, GHill]
  exact ⟨⟨h1, by norm_num⟩, C6_isLanded_monotonic GHill 0 0 50 0 h1 (by norm_num)⟩

/-- C7 (amended): in gap-bridging mode (gps available and minimum
absolute altitude difference over the profile exceeding 100 m) the
sampler of from_env_sounding.py selects up to TEN levels strictly below
and up to ten strictly above the target altitude (not one each), and
when both selections are non-empty it overrides the k-nearest deltas
with the velocity obtained by dividing the displacement between the two
selections' mean positions by their mean time difference: the per-step
horizontal displacement equals that velocity itself, NOT the step
duration times it (the interval factor does not appear), and the anchor
cancels out of the displacement. -/
theorem C7_gap_bridging_override (p : Profile) (hp : p ≠ []) (anchor : ℚ × ℚ)
    (interval a : ℚ) (hgap : gapCond p a = true) (hb : selBelow 10 p a ≠ [])
    (ha : selAbove 10 p a ≠ []) :
    ascentDeltas p true anchor interval a =
      some ((mean0 ((selAbove 10 p a).map (fun L => L.lon)) -
              mean0 ((selBelow 10 p a).map (fun L => L.lon))) /
             (mean0 ((selAbove 10 p a).map (fun L => L.time)) -
              mean0 ((selBelow 10 p a).map (fun L => L.time))),
            (mean0 ((selAbove 10 p a).map (fun L => L.lat)) -
              mean0 ((selBelow 10 p a).map (fun L => L.lat))) /
             (mean0 ((selAbove 10 p a).map (fun L => L.time)) -
              mean0 ((selBelow 10 p a).map (fun L => L.time)))) := by
  have hsel := kNearestSel_ne_nil 10 (by norm_num) p hp a
  have hE : ¬ (kNearestSel 10 p a).isEmpty = true := by
    simpa [List.isEmpty_iff] using hsel
  have hu : meanOf (fun L => L.u) (kNearestSel 10 p a) =
      some (mean0 ((kNearestSel 10 p a).map (fun L => L.u))) := by
    rw [meanOf, if_neg hE]
  have hv : meanOf (fun L => L.v) (kNearestSel 10 p a) =
      some (mean0 ((kNearestSel 10 p a).map (fun L => L.v))) := by
    rw [meanOf, if_neg hE]
  have hbF : (selBelow 10 p a).isEmpty = false := by
    rw [Bool.eq_false_iff]
    simpa [List.isEmpty_iff] using hb
  have haF : (selAbove 10 p a).isEmpty = false := by
    rw [Bool.eq_false_iff]
    simpa [List.isEmpty_iff] using ha
  simp only [ascentDeltas, kDeltas, hu, hv, hgap, hbF, haF, Bool.and_true, Bool.not_false,
    Bool.and_self, if_true, Option.some.injEq]
  simp only [gapVel, toECEF, toLocal, Prod.mk.injEq]
  constructor <;> ring

/-- Witness for C7: the gap-bridging hypotheses hold at the concrete
tracked profile Pgap sampled at 600 m. -/
theorem C7_gap_bridging_override_witness :
    (Pgap ≠ [] ∧ gapCond Pgap 600 = true ∧ selBelow 10 Pgap 600 ≠ [] ∧
        selAbove 10 Pgap 600 ≠ []) ∧
      ascentDeltas Pgap true (0, 0) 10 600 =
        some ((mean0 ((selAbove 10 Pgap 600).map (fun L => L.lon)) -
                mean0 ((selBelow 10 Pgap 600).map (fun L => L.lon))) /
               (mean0 ((selAbove 10 Pgap 600).map (fun L => L.time)) -
                mean0 ((selBelow 10 Pgap 600).map (fun L => L.time))),
              (mean0 ((selAbove 10 Pgap 600).map (fun L => L.lat)) -
                mean0 ((selBelow 10 Pgap 600).map (fun L => L.lat))) /
               (mean0 ((selAbove 10 Pgap 600).map (fun L => L.time)) -
                mean0 ((selBelow 10 Pgap 600).map (fun L => L.time)))) := by
  have h1 : gapCond Pgap 600 = true := by norm_num [gapCond, minimumQ, Pgap]
  have h2 : selBelow 10 Pgap 600 ≠ [] := by
    norm_num [selBelow, nsmallestKey, enumP, withIdx, lexLt, Pgap]
    exact List.cons_ne_nil _ _
  have h3 : selAbove 10 Pgap 600 ≠ [] := by
    norm_num [selAbove, nsmallestKey, enumP, withIdx, lexLt, Pgap]
  exact ⟨⟨by simp [Pgap], h1, h2, h3⟩,
    C7_gap_bridging_override Pgap (by simp [Pgap]) (0, 0) 10 600 h1 h2 h3⟩

/-- Counterexample to C7 as stated: at the profile Pgap (levels below
600 m at altitudes 0 and 200, one level above at 1000 m) the code's
deltas are (7/9, 0) — the ten-nearest means are used and no interval
factor is applied — while the claim's one-level-each, duration-times-
velocity prescription yields (5, 0); the two disagree. -/
theorem C7_claim_counterexample :
    ascentDeltas Pgap true (0, 0) 10 600 = some (7 / 9, 0) ∧
      gapDeltaSpecC7 Pgap (0, 0) 10 600 = some (5, 0) ∧
      ascentDeltas Pgap true (0, 0) 10 600 ≠ gapDeltaSpecC7 Pgap (0, 0) 10 600 := by
  have h1 : ascentDeltas Pgap true (0, 0) 10 600 = some (7 / 9, 0) := by
    norm_num [ascentDeltas, kDeltas, meanOf, mean0, kNearestSel, nsmallestKey, enumP, withIdx,
      lexLt, gapCond, minimumQ, selBelow, selAbove, gapVel, toECEF, toLocal, Pgap]
  have h2 : gapDeltaSpecC7 Pgap (0, 0) 10 600 = some (5, 0) := by
    norm_num [gapDeltaSpecC7, selBelow, selAbove, nsmallestKey, enumP, withIdx, lexLt,
      toECEF, toLocal, Pgap]
  refine ⟨h1, h2, ?_⟩
  rw [h1, h2]
  norm_num

theorem mem_withIdx_get :
    ∀ (p : List Level) (n i : ℕ) (h : i < p.length), (n + i, p.get ⟨i, h⟩) ∈ withIdx p n
  | [], _, i, h => absurd h (by simp)
  | L :: ls, n, 0, _ => by simp [withIdx]
  | L :: ls, n, i + 1, h => by
    have ih := mem_withIdx_get ls (n + 1) i (by simpa using h)
    rw [withIdx]
    refine List.mem_cons_of_mem _ ?_
    have hidx : n + (i + 1) = (n + 1) + i := by omega
    rw [hidx]
    exact ih

theorem of_mem_withIdx :
    ∀ (p : List Level) (n : ℕ) (x : ℕ × Level), x ∈ withIdx p n →
      n ≤ x.1 ∧ p.get? (x.1 - n) = some x.2
  | [], _, x, hx => absurd hx (List.not_mem_nil _)
  | L :: ls, n, x, hx => by
    rcases List.mem_cons.mp hx with rfl | h2
    · exact ⟨le_refl n, by simp⟩
    · obtain ⟨hle, hget⟩ := of_mem_withIdx ls (n + 1) x h2
      refine ⟨by omega, ?_⟩
      have hidx : x.1 - n = (x.1 - (n + 1)) + 1 := by omega
      rw [hidx, List.get?_cons_succ]
      exact hget

/-- C8 (amended): for every non-empty profile and every k > 0, sampling
at a target altitude equal to some existing level's altitude includes the
FIRST such level (in input order) in the selected k-nearest candidate
set; ties in absolute altitude distance are broken by input order, so a
later level at the same altitude can be displaced when k or more earlier
levels tie at distance zero (see the counterexample). -/
theorem C8_first_matching_level_selected (k : ℕ) (hk : 0 < k) (p : Profile) (tgt : ℚ)
    (i : Fin p.length) (hi : (p.get i).alt = tgt)
    (hfirst : ∀ j : Fin p.length, (j : ℕ) < (i : ℕ) → (p.get j).alt ≠ tgt) :
    p.get i ∈ kNearestSel k p tgt := by
  have hx : ((i : ℕ), p.get i) ∈ enumP p := by
    have := mem_withIdx_get p 0 i i.isLt
    simpa using this
  have hkey : |(p.get i).alt - tgt| = 0 := by rw [hi, sub_self, abs_zero]
  have hfil : (enumP p).filter
      (fun jm => lexLt (|jm.2.alt - tgt|, jm.1) (|(p.get i).alt - tgt|, (i : ℕ))) = [] := by
    rw [List.filter_eq_nil_iff]
    intro y hy
    obtain ⟨-, hget⟩ := of_mem_withIdx p 0 y hy
    rw [Nat.sub_zero] at hget
    obtain ⟨hylen, hyget⟩ := List.get?_eq_some.mp hget
    rw [hkey]
    simp only [lexLt, Bool.or_eq_true, Bool.and_eq_true, decide_eq_true_eq]
    rintro (habs | ⟨habs, hlt⟩)
    · exact absurd habs (not_lt.mpr (abs_nonneg _))
    · have halt : y.2.alt = tgt := by rwa [abs_eq_zero, sub_eq_zero] at habs
      exact hfirst ⟨y.1, hylen⟩ hlt (by rw [hyget]; exact halt)
  unfold kNearestSel nsmallestKey
  refine List.mem_map_of_mem _ (List.mem_filter.mpr ⟨hx, ?_⟩)
  show decide (((enumP p).filter
      (fun jm => lexLt (|jm.2.alt - tgt|, jm.1) (|(p.get i).alt - tgt|, (i : ℕ)))).length < k)
    = true
  rw [hfil]
  simpa using hk

/-- Witness for C8: at the one-level profile P0 the level at altitude 0
is the first (and only) one with that altitude and is selected. -/
theorem C8_first_matching_level_selected_witness :
    (0 < 10) ∧ (⟨0, 0, 0, 1, 0, 0, 0⟩ : Level) ∈ kNearestSel 10 P0 0 :=
  ⟨by norm_num,
    C8_first_matching_level_selected 10 (by norm_num) P0 0 ⟨0, by simp [P0]⟩ rfl
      (fun j hj => absurd hj (Nat.not_lt_zero _))⟩

/-- Counterexample to C8 as stated: in the profile P3 all three levels
sit at altitude 100; with the k = 2 selection of from_rap.py the third
level (wind u = 2) has two earlier levels tied at distance zero, so it is
NOT among the 2-nearest candidates even though its altitude equals the
target. -/
theorem C8_claim_counterexample :
    (⟨100, 2, 0, 10, 0, 0, 0⟩ : Level) ∈ P3 ∧ (⟨100, 2, 0, 10, 0, 0, 0⟩ : Level).alt = 100 ∧
      (⟨100, 2, 0, 10, 0, 0, 0⟩ : Level) ∉ kNearestSel 2 P3 100 := by
  have h : kNearestSel 2 P3 100 = [⟨100, 0, 0, 10, 0, 0, 0⟩, ⟨100, 1, 0, 10, 0, 0, 0⟩] := by
    norm_num [kNearestSel, nsmallestKey, enumP, withIdx, lexLt, P3]
  refine ⟨by simp [P3], rfl, ?_⟩
  rw [h]
  intro hmem
  rcases List.mem_cons.mp hmem with heq | hmem2
  · exact absurd (congrArg Level.u heq) (by norm_num)
  · rcases List.mem_cons.mp hmem2 with heq | hmem3
    · exact absurd (congrArg Level.u heq) (by norm_num)
    · exact List.not_mem_nil _ hmem3

/-- C9 (amended): the sampler never raises, but its degraded values are
not a zero-wind estimate.  On the empty profile the column means are NaN
(modelled as none) and the step inherits that undefined value rather
than zero wind.  When the gap condition holds with gps available but a
bracketing side is missing (the below or the above selection is empty),
the sampler falls back to the ten-nearest mean deltas — which are in
general non-zero — rather than to a zero estimate. -/
theorem C9_sampler_degradation :
    (∀ (gps : Bool) (anchor : ℚ × ℚ) (interval a : ℚ),
        ascentDeltas [] gps anchor interval a = none) ∧
      (∀ (p : Profile) (anchor : ℚ × ℚ) (interval a : ℚ), p ≠ [] →
        (selBelow 10 p a = [] ∨ selAbove 10 p a = []) →
        ascentDeltas p true anchor interval a = kDeltas interval p a) := by
  constructor
  · intro gps anchor interval a
    rfl
  · intro p anchor interval a hp hsel
    have hselne := kNearestSel_ne_nil 10 (by norm_num) p hp a
    have hE : ¬ (kNearestSel 10 p a).isEmpty = true := by
      simpa [List.isEmpty_iff] using hselne
    have hu : meanOf (fun L => L.u) (kNearestSel 10 p a) =
        some (mean0 ((kNearestSel 10 p a).map (fun L => L.u))) := by
      rw [meanOf, if_neg hE]
    have hv : meanOf (fun L => L.v) (kNearestSel 10 p a) =
        some (mean0 ((kNearestSel 10 p a).map (fun L => L.v))) := by
      rw [meanOf, if_neg hE]
    cases hgap : gapCond p a with
    | false => simp [ascentDeltas, kDeltas, hu, hv, hgap]
    | true => rcases hsel with h1 | h1 <;> simp [ascentDeltas, kDeltas, hu, hv, hgap, h1]

/-- Witness for C9: at the one-level profile P1 sampled at 500 m the gap
condition holds, gps is on, no level lies above, and the sampler falls
back to the k-nearest deltas. -/
theorem C9_sampler_degradation_witness :
    (P1 ≠ [] ∧ selAbove 10 P1 500 = []) ∧
      ascentDeltas P1 true (0, 0) 10 500 = kDeltas 10 P1 500 := by
  have h2 : selAbove 10 P1 500 = [] := by
    norm_num [selAbove, nsmallestKey, enumP, withIdx, lexLt, P1]
  exact ⟨⟨by simp [P1], h2⟩,
    C9_sampler_degradation.2 P1 (0, 0) 10 500 (by simp [P1]) (Or.inr h2)⟩

/-- Counterexample to C9 as stated: at the profile P1 (single level with
wind u = 3 at altitude 0) sampled at 500 m — gap over 100 m, gps on,
only the below side exists — the integration step proceeds with deltas
(30, 0), the k-nearest mean, not with the claimed zero-wind estimate. -/
theorem C9_claim_counterexample :
    ascentDeltas P1 true (0, 0) 10 500 = some (30, 0) ∧
      ascentDeltas P1 true (0, 0) 10 500 ≠ some (0, 0) := by
  have h : ascentDeltas P1 true (0, 0) 10 500 = some (30, 0) := by
    norm_num [ascentDeltas, kDeltas, meanOf, mean0, kNearestSel, nsmallestKey, enumP, withIdx,
      lexLt, gapCond, minimumQ, selBelow, selAbove, P1]
  refine ⟨h, ?_⟩
  rw [h]
  norm_num

/-- C10 (confirmed): the landed test is a partial function of the
terrain set.  It filters the rows whose latitude equals the value nearest
to the balloon latitude and whose longitude equals the value nearest to
the balloon longitude — two independent nearest-neighbour lookups — and
reads element 0 of the result.  If no row carries both nearest axis
values (an irregular grid) the filtered frame is empty and the read
raises (modelled as none) instead of returning a boolean; if some row
carries both, the test returns a boolean. -/
theorem C10_landed_lookup_irregular (g : Terrain) (lon lat alt : ℚ) (hg : g ≠ []) :
    ((∀ r ∈ g, ¬ (some r.lat = nearestKeyVal (fun q => q.lat) g lat ∧
        some r.lon = nearestKeyVal (fun q => q.lon) g lon)) →
      isLanded g lon lat alt = none) ∧
    ((∃ r ∈ g, some r.lat = nearestKeyVal (fun q => q.lat) g lat ∧
        some r.lon = nearestKeyVal (fun q => q.lon) g lon) →
      ∃ b, isLanded g lon lat alt = some b) := by
  obtain ⟨r0, rs, rfl⟩ := List.exists_cons_of_ne_nil hg
  constructor
  · intro hno
    have hfil : (r0 :: rs).filter
        (fun r => decide (r.lat = foldNearest (fun q => q.lat) lat rs r0.lat) &&
          decide (r.lon = foldNearest (fun q => q.lon) lon rs r0.lon)) = [] := by
      rw [List.filter_eq_nil_iff]
      intro y hy
      simp only [Bool.and_eq_true, decide_eq_true_eq, not_and]
      intro hla hlo
      exact hno y hy ⟨by rw [nearestKeyVal, hla], by rw [nearestKeyVal, hlo]⟩
    simp only [isLanded, groundElev, nearestKeyVal, hfil, List.head?_nil, Option.map_none']
  · rintro ⟨r, hrmem, hlat, hlon⟩
    have hla : r.lat = foldNearest (fun q => q.lat) lat rs r0.lat := by
      rw [nearestKeyVal] at hlat
      exact Option.some.inj hlat
    have hlo : r.lon = foldNearest (fun q => q.lon) lon rs r0.lon := by
      rw [nearestKeyVal] at hlon
      exact Option.some.inj hlon
    have hrf : r ∈ (r0 :: rs).filter
        (fun r => decide (r.lat = foldNearest (fun q => q.lat) lat rs r0.lat) &&
          decide (r.lon = foldNearest (fun q => q.lon) lon rs r0.lon)) := by
      rw [List.mem_filter]
      exact ⟨hrmem, by simp [hla, hlo]⟩
    rcases hfil : (r0 :: rs).filter
        (fun r => decide (r.lat = foldNearest (fun q => q.lat) lat rs r0.lat) &&
          decide (r.lon = foldNearest (fun q => q.lon) lon rs r0.lon)) with _ | ⟨a, as⟩
    · rw [hfil] at hrf
      exact absurd hrf (List.not_mem_nil r)
    · refine ⟨decide (a.alt > alt), ?_⟩
      simp only [isLanded, groundElev, nearestKeyVal, hfil, List.head?_cons, Option.map_some']

/-- Witness for C10: on the irregular terrain Girr queried at longitude
5, latitude 10, the nearest latitude (10) and nearest longitude (5)
belong to different rows, no row carries both, and the landed test
raises (none). -/
theorem C10_landed_lookup_irregular_witness :
    (Girr ≠ []) ∧ isLanded Girr 5 10 0 = none := by
  have hno : ∀ r ∈ Girr, ¬ (some r.lat = nearestKeyVal (fun q => q.lat) Girr 10 ∧
      some r.lon = nearestKeyVal (fun q => q.lon) Girr 5) := by
    intro r hr
    rcases List.mem_cons.mp hr with rfl | hr2
    · norm_num [nearestKeyVal, foldNearest, Girr]
    · rcases List.mem_cons.mp hr2 with rfl | hr3
      · norm_num [nearestKeyVal, foldNearest, Girr]
      · exact absurd hr3 (List.not_mem_nil _)
  exact ⟨by simp [Girr], (C10_landed_lookup_irregular Girr 5 10 0 (by simp [Girr])).1 hno⟩

end BalloonDescent
